import Mathlib

/-!
Verification of the meeting time-resolution, availability-filter and
calendar-layout logic, and of the page-access gate, of a CRM web
application.

Modelling conventions.

A JavaScript `Date` is used by the code in two roles:
* as a carrier of wall-clock fields (year/month/day/hour/minute, read and
  written through the local accessors `getHours`, `setHours`, ...) that is
  later interpreted in an explicitly named timezone, and
* as an absolute instant (milliseconds since the epoch).

Both roles are embedded as an integer count of *minutes* since the epoch:
every instant the meeting modal builds has seconds and milliseconds zeroed
(`setHours(h, m, 0, 0)`), so minute granularity is exact.  The edit-mode
duration computation (claim C5) works on raw stored instants and is
embedded separately at millisecond granularity.  Wall-clock field
accessors become floor-division/remainder on the minute count: the day
index is `w / 1440`, the minute-of-day is `w % 1440` (Lean's `Int`
division and remainder are Euclidean, which for the positive constants
1440 and 60 agree with mathematical floor division, matching JavaScript's
local-field normalization also for pre-1970 values).

Serialization through `toISOString` followed by `new Date(string)` is the
identity on instants and is embedded as the identity.
-/

namespace CRM

/-- Day index (local calendar date) of a wall-clock minute count: the JS
date fields year/month/day collapsed to one linear day number. -/
def dayOf (w : Int) : Int := w / 1440

/-- Minute-of-day of a wall-clock minute count (JS `getHours() * 60 +
getMinutes()`). -/
def todOf (w : Int) : Int := w % 1440

/-- JS `getHours()` of a wall-clock minute count. -/
def hourOf (w : Int) : Int := todOf w / 60

/-- JS `getMinutes()` of a wall-clock minute count. -/
def minuteOf (w : Int) : Int := todOf w % 60

/-- The (hour, minute) pair of a wall-clock minute count, as produced by
`format(date, "HH:mm")` before re-parsing. -/
def hmOf (w : Int) : Int × Int := (hourOf w, minuteOf w)

theorem hourOf_mul_add_minuteOf (w : Int) : hourOf w * 60 + minuteOf w = todOf w := by
  unfold hourOf minuteOf
  omega

namespace MeetingModal

/-- Modelled from the spec: a named timezone of the curated list, as seen
through the external `date-fns-tz` conversions.  Only its effect is
relevant: the UTC offset, in minutes, which may depend on the absolute
instant (daylight-saving time).  The offset satisfies
`wall = instant + ofs instant`. -/
structure Timezone where
  ofs : Int → Int

/-- Modelled from the spec: the external `toZonedTime` of `date-fns-tz` —
the wall-clock moment that the absolute instant `u` shows in zone `tz`. -/
def toZonedTime (tz : Timezone) (u : Int) : Int := u + tz.ofs u

/-- Modelled from the spec: the external `fromZonedTime` of `date-fns-tz`
— the absolute instant whose local time in `tz` is the wall-clock moment
`w`.  Computed as the library does, by guessing the offset at the
wall-clock value read as an instant and correcting once; for any wall
clock that actually occurs in the zone (away from a DST gap) the result
`u` satisfies `toZonedTime tz u = w`. -/
def fromZonedTime (tz : Timezone) (w : Int) : Int := w - tz.ofs (w - tz.ofs w)

/-- JS `dt.setHours(h, m, 0, 0)` on a wall-clock value `w`: keep the local
date, replace the time-of-day fields, zero seconds and milliseconds. -/
def setHoursMinutes (w : Int) (h m : Int) : Int := (w / 1440) * 1440 + h * 60 + m

/-- `buildISODateTime` (MeetingModal.tsx:268-276): combine the selected
date with the parsed "HH:mm" start time, zero seconds/milliseconds, and
convert from the selected timezone to the UTC instant stored as an ISO
string.  A missing date yields the empty string, embedded as `none`. -/
def buildISODateTime (tz : Timezone) (date : Option Int) (time : Int × Int) : Option Int :=
  match date with
  | none => none
  | some d => some (fromZonedTime tz (setHoursMinutes d time.1 time.2))

/-- Edit-mode load (MeetingModal.tsx:209-219), date component: the stored
start instant is parsed with `new Date` and its local date fields are
displayed; `disp` is the timezone the fields are read in. -/
def editLoadStartDay (disp : Timezone) (u : Int) : Int := dayOf (toZonedTime disp u)

/-- Edit-mode load (MeetingModal.tsx:209-219), time component:
`format(start, "HH:mm")` of the stored start instant, read in timezone
`disp`, as an (hour, minute) pair. -/
def editLoadStartHM (disp : Timezone) (u : Int) : Int × Int := hmOf (toZonedTime disp u)

theorem dayOf_setHoursMinutes (d h m : Int) (hh0 : 0 ≤ h) (hh : h < 24)
    (hm0 : 0 ≤ m) (hm : m < 60) : dayOf (setHoursMinutes d h m) = dayOf d := by
  unfold dayOf setHoursMinutes
  omega

theorem todOf_setHoursMinutes (d h m : Int) (hh0 : 0 ≤ h) (hh : h < 24)
    (hm0 : 0 ≤ m) (hm : m < 60) : todOf (setHoursMinutes d h m) = h * 60 + m := by
  unfold todOf setHoursMinutes
  omega

theorem hmOf_setHoursMinutes (d h m : Int) (hh0 : 0 ≤ h) (hh : h < 24)
    (hm0 : 0 ≤ m) (hm : m < 60) : hmOf (setHoursMinutes d h m) = (h, m) := by
  unfold hmOf hourOf minuteOf todOf setHoursMinutes
  refine Prod.ext ?_ ?_ <;> simp only <;> omega

/-- C1: for every valid (date, time-of-day, timezone) selection — validity
meaning the wall-clock moment actually occurs in the zone, i.e. the
external conversion round-trips on it — building the stored UTC instant
with `buildISODateTime` and loading that instant back for editing shows
the original date and time-of-day again when the display timezone equals
the selected timezone. -/
theorem C1_forward_then_load_roundtrip (tz : Timezone) (d h m : Int)
    (hh0 : 0 ≤ h) (hh : h < 24) (hm0 : 0 ≤ m) (hm : m < 60)
    (hvalid : toZonedTime tz (fromZonedTime tz (setHoursMinutes d h m)) = setHoursMinutes d h m) :
    ∀ u : Int, buildISODateTime tz (some d) (h, m) = some u →
      editLoadStartDay tz u = dayOf d ∧ editLoadStartHM tz u = (h, m) := by
  intro u hu
  have hu' : u = fromZonedTime tz (setHoursMinutes d h m) := by
    simpa [buildISODateTime] using hu.symm
  subst hu'
  unfold editLoadStartDay editLoadStartHM
  rw [hvalid]
  exact ⟨dayOf_setHoursMinutes d h m hh0 hh hm0 hm, hmOf_setHoursMinutes d h m hh0 hh hm0 hm⟩

/-- C1 witness: the fixed-offset zone GMT+05:30 (Asia/Kolkata, the
modal's default), day 0 at 09:00; the stored instant is minute 210 and
loading it back shows day 0, 09:00. -/
theorem C1_forward_then_load_roundtrip_witness :
    editLoadStartDay ⟨fun _ => 330⟩ 210 = dayOf 0 ∧
    editLoadStartHM ⟨fun _ => 330⟩ 210 = (9, 0) :=
  C1_forward_then_load_roundtrip ⟨fun _ => 330⟩ 0 9 0 (by decide) (by decide)
    (by decide) (by decide) (by decide) 210 (by decide)

/-- `padStart(2, "0")` of a decimal numeral (MeetingModal.tsx:83-84): all
rendered values are < 100, so at most one leading zero is added. -/
def pad2 (n : Nat) : String := if n < 10 then "0" ++ toString n else toString n

/-- `generateTimeSlots` (MeetingModal.tsx:79-89): for each hour 0..23 and
each minute 0, 15, 30, 45 (the `minute += 15` loop below 60), push the
zero-padded "HH:mm" string. -/
def generateTimeSlots : List String :=
  (List.range 24).flatMap fun hour =>
    [0, 15, 30, 45].map fun minute => pad2 hour ++ ":" ++ pad2 minute

/-- `TIME_SLOTS` (MeetingModal.tsx:91). -/
def TIME_SLOTS : List String := generateTimeSlots

/-- Decimal value of a digit string, as JS `Number` computes it on the
all-digit inputs produced by `generateTimeSlots`. -/
def digitsToNat (l : List Char) : Nat := l.foldl (fun n c => n * 10 + (c.toNat - 48)) 0

/-- `slot.split(":").map(Number)` (MeetingModal.tsx:188): the characters
before the colon and the characters after it, each read as a decimal
number.  Embedded over the string's character list. -/
def parseHM (s : String) : Nat × Nat :=
  (digitsToNat (s.data.takeWhile (fun c => c ≠ ':')),
   digitsToNat ((s.data.dropWhile (fun c => c ≠ ':')).drop 1))

/-- Time-of-day value of a slot string, minutes since midnight. -/
def slotVal (s : String) : Nat := (parseHM s).1 * 60 + (parseHM s).2

/-- `now.getHours()` (MeetingModal.tsx:184) of the wall-clock minute
count `now`. -/
def currentHour (now : Int) : Nat := ((now % 1440) / 60).toNat

/-- `now.getMinutes()` (MeetingModal.tsx:185). -/
def currentMinute (now : Int) : Nat := ((now % 1440) % 60).toNat

/-- The filter body (MeetingModal.tsx:187-192): keep a slot iff its hour
is later than the current hour, or the hour is equal and the minute is
later. -/
def slotIsFuture (now : Int) (slot : String) : Bool :=
  let hm := parseHM slot
  if hm.1 > currentHour now then true
  else if hm.1 = currentHour now ∧ hm.2 > currentMinute now then true
  else false

/-- `getAvailableTimeSlots` (MeetingModal.tsx:175-193): all slots when no
date is selected or the selected date is not today (calendar-day
equality against `now`); for today, only the slots strictly later than
the current time-of-day. -/
def getAvailableTimeSlots (now : Int) (selectedDate : Option Int) : List String :=
  match selectedDate with
  | none => TIME_SLOTS
  | some d =>
    if d / 1440 = now / 1440 then TIME_SLOTS.filter (slotIsFuture now)
    else TIME_SLOTS

theorem timeSlots_map_slotVal : TIME_SLOTS.map slotVal = (List.range 96).map (· * 15) := by
  decide

theorem timeSlots_pairwise : List.Pairwise (fun a b => slotVal a < slotVal b) TIME_SLOTS := by
  have h2 : (TIME_SLOTS.map slotVal).Pairwise (· < ·) := by
    rw [timeSlots_map_slotVal]; decide
  exact List.pairwise_map.mp h2

theorem timeSlots_bounds : ∀ s ∈ TIME_SLOTS, (parseHM s).1 ≤ 23 ∧ (parseHM s).2 ≤ 45 := by
  decide

theorem slotIsFuture_iff (now : Int) (s : String) :
    slotIsFuture now s = true ↔
      ((parseHM s).1 > currentHour now ∨
        ((parseHM s).1 = currentHour now ∧ (parseHM s).2 > currentMinute now)) := by
  show (if (parseHM s).1 > currentHour now then true
    else if (parseHM s).1 = currentHour now ∧ (parseHM s).2 > currentMinute now then true
    else false) = true ↔ _
  split_ifs with h1 h2
  · simp [h1]
  · simp [h2]
  · simp only [Bool.false_eq_true, false_iff]
    push_neg
    exact ⟨le_of_not_lt h1, fun he => by
      rcases not_and_or.mp h2 with hc | hc
      · exact absurd he hc
      · exact le_of_not_lt hc⟩

/-- C2: for every `now` and defined candidate date, a date on another
calendar day yields all 96 slots `00:00` … `23:45` in ascending order;
today yields exactly the slots strictly later than the current
time-of-day (hour first, then minute), still ascending; `now` = 14:32
yields `14:45` first, and `now` at 23:45 or later yields the empty
list. -/
theorem C2_available_time_slots (now d : Int) :
    TIME_SLOTS.length = 96 ∧
    TIME_SLOTS.head? = some "00:00" ∧
    TIME_SLOTS.getLast? = some "23:45" ∧
    List.Pairwise (fun a b => slotVal a < slotVal b) TIME_SLOTS ∧
    getAvailableTimeSlots now none = TIME_SLOTS ∧
    (d / 1440 ≠ now / 1440 → getAvailableTimeSlots now (some d) = TIME_SLOTS) ∧
    (d / 1440 = now / 1440 →
      (∀ s, s ∈ getAvailableTimeSlots now (some d) ↔
          s ∈ TIME_SLOTS ∧ ((parseHM s).1 > currentHour now ∨
            ((parseHM s).1 = currentHour now ∧ (parseHM s).2 > currentMinute now))) ∧
      List.Pairwise (fun a b => slotVal a < slotVal b) (getAvailableTimeSlots now (some d)) ∧
      (currentHour now = 23 ∧ 45 ≤ currentMinute now →
        getAvailableTimeSlots now (some d) = [])) ∧
    (getAvailableTimeSlots 872 (some 872)).head? = some "14:45" ∧
    getAvailableTimeSlots 1430 (some 1430) = [] := by
  refine ⟨by decide, by decide, by decide, timeSlots_pairwise, rfl, ?_, ?_, by decide, by decide⟩
  · intro hne
    simp [getAvailableTimeSlots, hne]
  · intro heq
    have hfil : getAvailableTimeSlots now (some d) = TIME_SLOTS.filter (slotIsFuture now) := by
      simp [getAvailableTimeSlots, heq]
    refine ⟨?_, ?_, ?_⟩
    · intro s
      rw [hfil, List.mem_filter, slotIsFuture_iff]
    · rw [hfil]
      exact timeSlots_pairwise.sublist (List.filter_sublist _)
    · intro hlate
      rw [hfil, List.filter_eq_nil_iff]
      intro s hs
      have hb := timeSlots_bounds s hs
      intro hfut
      rcases (slotIsFuture_iff now s).mp hfut with hgt | ⟨_, hgt⟩ <;> omega

/-- C2 witness: for `now` 14:32 on day 0 and candidate date on day 3
(not today), every slot is returned. -/
theorem C2_available_time_slots_witness :
    getAvailableTimeSlots 872 (some 4320) = TIME_SLOTS := by
  have h := C2_available_time_slots 872 4320
  exact h.2.2.2.2.2.1 (by decide)

/-- `calculateEndDateTime` (MeetingModal.tsx:198-204): set the start
wall-clock fields on the selected date, then add the duration in minutes
(`setMinutes(getMinutes() + durationMinutes)` normalizes any overflow,
which is plain addition on the linear wall-clock value). -/
def calculateEndDateTime (start : Int) (time : Int × Int) (durationMinutes : Int) : Int :=
  setHoursMinutes start time.1 time.2 + durationMinutes

/-- `buildEndISODateTime` (MeetingModal.tsx:278-284): the end wall-clock
moment converted from the selected timezone to the stored UTC instant;
empty (`none`) when no date is selected. -/
def buildEndISODateTime (tz : Timezone) (date : Option Int) (time : Int × Int)
    (durationMinutes : Int) : Option Int :=
  match date with
  | none => none
  | some d => some (fromZonedTime tz (calculateEndDateTime d time durationMinutes))

/-- C3: the end wall-clock moment is the start wall-clock moment plus the
duration, rolling over a day boundary by the floor/remainder laws; and
when the timezone offset is the same at the end as at the start (no DST
transition inside the meeting) the stored end instant is exactly the
stored start instant plus the duration. -/
theorem C3_duration_addition (tz : Timezone) (d0 h m dur : Int)
    (hh0 : 0 ≤ h) (hh : h < 24) (hm0 : 0 ≤ m) (hm : m < 60)
    (hdur : dur = 30 ∨ dur = 60)
    (hstable : tz.ofs (setHoursMinutes d0 h m + dur - tz.ofs (setHoursMinutes d0 h m + dur)) =
        tz.ofs (setHoursMinutes d0 h m - tz.ofs (setHoursMinutes d0 h m))) :
    calculateEndDateTime d0 (h, m) dur = setHoursMinutes d0 h m + dur ∧
    dayOf (setHoursMinutes d0 h m + dur) =
      dayOf (setHoursMinutes d0 h m) + (todOf (setHoursMinutes d0 h m) + dur) / 1440 ∧
    todOf (setHoursMinutes d0 h m + dur) = (todOf (setHoursMinutes d0 h m) + dur) % 1440 ∧
    (∀ u, buildISODateTime tz (some d0) (h, m) = some u →
      buildEndISODateTime tz (some d0) (h, m) dur = some (u + dur)) := by
  refine ⟨rfl, ?_, ?_, ?_⟩
  · unfold dayOf todOf setHoursMinutes
    omega
  · unfold todOf setHoursMinutes
    omega
  · intro u hu
    have hu' : u = fromZonedTime tz (setHoursMinutes d0 h m) := by
      simpa [buildISODateTime] using hu.symm
    subst hu'
    unfold buildEndISODateTime calculateEndDateTime fromZonedTime
    dsimp only
    rw [hstable]
    congr 1
    omega

/-- C3 witness: in the fixed-offset zone UTC, start 23:45 on day 0 plus
30 minutes ends at wall clock 00:15 on day 1, and the stored end instant
is the stored start instant 1425 plus 30. -/
theorem C3_duration_addition_witness :
    dayOf (setHoursMinutes 0 23 45 + 30) = 1 ∧
    todOf (setHoursMinutes 0 23 45 + 30) = 15 ∧
    buildEndISODateTime ⟨fun _ => 0⟩ (some 0) (23, 45) 30 = some 1455 := by
  have h := C3_duration_addition ⟨fun _ => 0⟩ 0 23 45 30 (by decide) (by decide)
    (by decide) (by decide) (Or.inl rfl) rfl
  refine ⟨by decide, by decide, ?_⟩
  have h4 := h.2.2.2 1425 (by decide)
  simpa using h4

/-- C3 counterexample: in a zone with a fall-back transition at instant
120 (offset +60 before it, 0 after — local clocks repeat the hour before
02:00), the selection day 0, 01:45, duration 30 is valid at both
endpoints (both wall clocks occur in the zone, as the two `toZonedTime`
conjuncts show), yet the stored start instant is 45 and the stored end
instant 135: the stored difference is 90 minutes, not 30, because the
two `fromZonedTime` conversions resolve the ambiguous repeated hour to
different offsets.  The claim's universally quantified "the stored end
instant is exactly d minutes after the stored start instant" is false
here. -/
theorem C3_counterexample_fall_back :
    buildISODateTime ⟨fun u => if u < 120 then 60 else 0⟩ (some 0) (1, 45) = some 45 ∧
    buildEndISODateTime ⟨fun u => if u < 120 then 60 else 0⟩ (some 0) (1, 45) 30 = some 135 ∧
    toZonedTime ⟨fun u => if u < 120 then 60 else 0⟩ 45 = setHoursMinutes 0 1 45 ∧
    toZonedTime ⟨fun u => if u < 120 then 60 else 0⟩ 135 = setHoursMinutes 0 1 45 + 30 ∧
    (135 : Int) ≠ 45 + 30 := by decide

/-- The modal's date/time selection state: selected start date (a
wall-clock value whose date fields matter), parsed "HH:mm" start time,
and selected timezone. -/
structure ModalTimeState where
  startDate : Option Int
  startTime : Int × Int
  timezone : Timezone

/-- `handleTimezoneChange` (MeetingModal.tsx:152-168): when a date and
time are selected, combine them, convert from the old timezone to UTC
and on to the new timezone, and replace the displayed date and time with
the converted values; always install the new timezone. -/
def handleTimezoneChange (st : ModalTimeState) (newTimezone : Timezone) : ModalTimeState :=
  match st.startDate with
  | some d =>
    let w := setHoursMinutes d st.startTime.1 st.startTime.2
    let utcTime := fromZonedTime st.timezone w
    let timeInNewTz := toZonedTime newTimezone utcTime
    { startDate := some timeInNewTz, startTime := hmOf timeInNewTz, timezone := newTimezone }
  | none => { st with timezone := newTimezone }

/-- C4: reassigning the timezone to the currently selected timezone
leaves the displayed date and time-of-day unchanged, for every selection
whose wall-clock moment occurs in the zone (the external conversion
round-trips on it). -/
theorem C4_timezone_change_idempotent (tz : Timezone) (d h m : Int)
    (hh0 : 0 ≤ h) (hh : h < 24) (hm0 : 0 ≤ m) (hm : m < 60)
    (hvalid : toZonedTime tz (fromZonedTime tz (setHoursMinutes d h m)) = setHoursMinutes d h m) :
    (handleTimezoneChange ⟨some d, (h, m), tz⟩ tz).startDate.map dayOf = some (dayOf d) ∧
    (handleTimezoneChange ⟨some d, (h, m), tz⟩ tz).startTime = (h, m) ∧
    (handleTimezoneChange ⟨some d, (h, m), tz⟩ tz).timezone = tz := by
  unfold handleTimezoneChange
  dsimp only
  rw [hvalid]
  refine ⟨?_, hmOf_setHoursMinutes d h m hh0 hh hm0 hm, rfl⟩
  rw [Option.map_some', dayOf_setHoursMinutes d h m hh0 hh hm0 hm]

/-- C4 witness: Asia/Kolkata fixed offset, day 2 at 14:45: a no-op
timezone change keeps day 2 and 14:45. -/
theorem C4_timezone_change_idempotent_witness :
    (handleTimezoneChange ⟨some 2880, (14, 45), ⟨fun _ => 330⟩⟩ ⟨fun _ => 330⟩).startDate.map
        dayOf = some (dayOf 2880) ∧
    (handleTimezoneChange ⟨some 2880, (14, 45), ⟨fun _ => 330⟩⟩ ⟨fun _ => 330⟩).startTime =
        (14, 45) ∧
    (handleTimezoneChange ⟨some 2880, (14, 45), ⟨fun _ => 330⟩⟩ ⟨fun _ => 330⟩).timezone =
        ⟨fun _ => 330⟩ :=
  C4_timezone_change_idempotent ⟨fun _ => 330⟩ 2880 14 45 (by decide) (by decide)
    (by decide) (by decide) (by decide)

/-- C4 counterexample: in a zone with a spring-forward transition at
instant 120 (offset 0 before it, +60 after — wall clocks 02:00…02:59 do
not occur), reassigning the timezone to itself for the selection day 0,
02:30 changes the displayed time-of-day to 03:30: the round trip
local → UTC → local is not the identity on a gap time, so the claim
quantified over every defined date and time-of-day is false here. -/
theorem C4_counterexample_spring_gap :
    (handleTimezoneChange ⟨some 0, (2, 30), ⟨fun u => if u < 120 then 0 else 60⟩⟩
        ⟨fun u => if u < 120 then 0 else 60⟩).startTime = (3, 30) ∧
    ¬ (handleTimezoneChange ⟨some 0, (2, 30), ⟨fun u => if u < 120 then 0 else 60⟩⟩
        ⟨fun u => if u < 120 then 0 else 60⟩).startTime = (2, 30) := by decide

/-- Edit-mode duration (MeetingModal.tsx:213-215): `Math.round((end -
start) / 60000)` on the stored millisecond instants; JS `Math.round x =
⌊x + 1/2⌋`, so the value is `⌊(2·(end − start) + 60000) / 120000⌋`. -/
def loadDurationMinutes (startMs endMs : Int) : Int :=
  (2 * (endMs - startMs) + 60000) / 120000

/-- Edit-mode duration bucket (MeetingModal.tsx:219):
`durationMinutes <= 30 ? "30" : "60"`. -/
def loadDurationChoice (startMs endMs : Int) : String :=
  if loadDurationMinutes startMs endMs ≤ 30 then "30" else "60"

/-- C5: on edit-mode load the displayed duration is the rounded minute
difference of the stored instants — it is within half a minute of the
exact difference, with ties rounded up — and the 30-minute option is
selected exactly when that value is at most 30, the 60-minute option
otherwise. -/
theorem C5_edit_load_duration (s e : Int) (hlt : s < e) :
    (60000 * loadDurationMinutes s e - 30000 ≤ e - s ∧
      e - s < 60000 * loadDurationMinutes s e + 30000) ∧
    (loadDurationChoice s e = "30" ↔ loadDurationMinutes s e ≤ 30) ∧
    (loadDurationChoice s e = "60" ↔ 30 < loadDurationMinutes s e) := by
  refine ⟨by unfold loadDurationMinutes; omega, ?_, ?_⟩
  · unfold loadDurationChoice
    split_ifs with h
    · simpa using h
    · have hne : ("60" : String) ≠ "30" := by decide
      exact ⟨fun hc => absurd hc hne, fun hq => absurd hq h⟩
  · unfold loadDurationChoice
    split_ifs with h
    · have hne : ("30" : String) ≠ "60" := by decide
      exact ⟨fun hc => absurd hc hne, fun hq => absurd h (not_le.mpr hq)⟩
    · simpa using not_le.mp h

/-- C5 witness: a stored 45-minute meeting (2 700 000 ms) rounds to 45
minutes and selects the 60-minute option. -/
theorem C5_edit_load_duration_witness :
    loadDurationMinutes 0 2700000 = 45 ∧ loadDurationChoice 0 2700000 = "60" := by
  have h := C5_edit_load_duration 0 2700000 (by decide)
  exact ⟨by decide, h.2.2.mpr (by decide)⟩

end MeetingModal

namespace UsePageAccess

/-- A page-permission record (usePageAccess.tsx:6-13). -/
structure PagePermission where
  id : String
  page_name : String
  route : String
  admin_access : Bool
  manager_access : Bool
  user_access : Bool
  deriving DecidableEq

/-- Cache time-to-live (usePageAccess.tsx:17): five minutes, in
milliseconds. -/
def CACHE_TTL : Int := 5 * 60 * 1000

/-- Route normalization (usePageAccess.tsx:26-28): the root route maps to
"/dashboard"; any other route has one trailing slash removed
(`replace(/\/$/, '')` replaces a single match anchored at the end). -/
def normalizedRoute (route : String) : String :=
  if route = "/" then "/dashboard"
  else if route.data.getLast? = some '/' then String.mk route.data.dropLast
  else route

/-- Role switch (usePageAccess.tsx:76-88): admin and manager select their
flags; the case "user", an unrecognized role, or an absent role all fall
to the default branch selecting `user_access`. -/
def roleFlag (userRole : Option String) (p : PagePermission) : Bool :=
  if userRole = some "admin" then p.admin_access
  else if userRole = some "manager" then p.manager_access
  else p.user_access

/-- Permission source (usePageAccess.tsx:46-63): a cache entry younger
than CACHE_TTL is used directly; otherwise the store is fetched, which
may fail.  (On success the code also refills the cache; the access
decision embedded here is unaffected by that write.) -/
def getPermissions (cache : Option (List PagePermission × Int)) (now : Int)
    (fetch : Except Unit (List PagePermission)) : Except Unit (List PagePermission) :=
  match cache with
  | some c => if now - c.2 < CACHE_TTL then Except.ok c.1 else fetch
  | none => fetch

/-- `checkAccess` (usePageAccess.tsx:30-98) as a function of its inputs:
`none` while auth or role are still loading (the early return that
decides nothing); `some false` when there is no user; on a fetch error
`some true` (fail-open); with permissions in hand, `some true` when no
record matches the normalized route, otherwise the role-selected flag. -/
def checkAccess (authLoading roleLoading hasUser : Bool) (userRole : Option String)
    (cache : Option (List PagePermission × Int)) (now : Int)
    (fetch : Except Unit (List PagePermission)) (route : String) : Option Bool :=
  if authLoading || roleLoading then none
  else if !hasUser then some false
  else
    match getPermissions cache now fetch with
    | Except.error _ => some true
    | Except.ok permissions =>
      match permissions.find? (fun p => p.route == normalizedRoute route) with
      | none => some true
      | some p => some (roleFlag userRole p)

/-- C6: for an authenticated check, a failing fetch allows access
(fail-open); a missing record for the normalized route allows access;
and an existing record gates access by exactly the role-selected flag
(admin → admin_access, manager → manager_access, any other or absent
role → user_access). -/
theorem C6_access_decision (userRole : Option String)
    (cache : Option (List PagePermission × Int)) (now : Int)
    (fetch : Except Unit (List PagePermission)) (route : String)
    (perms : List PagePermission) :
    (getPermissions cache now fetch = Except.error () →
      checkAccess false false true userRole cache now fetch route = some true) ∧
    (getPermissions cache now fetch = Except.ok perms →
      ((perms.find? (fun p => p.route == normalizedRoute route) = none →
          checkAccess false false true userRole cache now fetch route = some true) ∧
        (∀ p, perms.find? (fun p => p.route == normalizedRoute route) = some p →
          checkAccess false false true userRole cache now fetch route =
            some (if userRole = some "admin" then p.admin_access
              else if userRole = some "manager" then p.manager_access
              else p.user_access)))) := by
  refine ⟨fun herr => ?_, fun hok => ⟨fun hnone => ?_, fun p hp => ?_⟩⟩
  · simp [checkAccess, herr]
  · simp [checkAccess, hok, hnone]
  · simp [checkAccess, hok, hp, roleFlag]

/-- C6 witness: a manager on route "/meetings/" (normalizing to
"/meetings") with a record whose manager flag is false is denied. -/
theorem C6_access_decision_witness :
    checkAccess false false true (some "manager") none 0
      (Except.ok [⟨"1", "Meetings", "/meetings", true, false, true⟩]) "/meetings/" =
      some false := by
  have h := C6_access_decision (some "manager") none 0
    (Except.ok [⟨"1", "Meetings", "/meetings", true, false, true⟩]) "/meetings/"
    [⟨"1", "Meetings", "/meetings", true, false, true⟩]
  have h2 := (h.2 rfl).2 ⟨"1", "Meetings", "/meetings", true, false, true⟩ (by decide)
  rw [h2]
  decide

/-- C7 counterexample: normalization is not idempotent on every route —
"//" normalizes to "/" (one slash stripped), which normalizes again to
"/dashboard". -/
theorem C7_counterexample_double_slash :
    normalizedRoute (normalizedRoute "//") ≠ normalizedRoute "//" := by decide

/-- C7 (amended): "/" maps to "/dashboard"; any other route has a single
trailing slash stripped (and is unchanged without one); and
normalization is idempotent for every route that does not end in two
consecutive slashes. -/
theorem C7_normalization :
    normalizedRoute "/" = "/dashboard" ∧
    (∀ r : String, r ≠ "/" → r.data.getLast? = some '/' →
      (normalizedRoute r).data = r.data.dropLast) ∧
    (∀ r : String, r ≠ "/" → r.data.getLast? ≠ some '/' → normalizedRoute r = r) ∧
    (∀ r : String, ¬(r.data.getLast? = some '/' ∧ r.data.dropLast.getLast? = some '/') →
      normalizedRoute (normalizedRoute r) = normalizedRoute r) := by
  refine ⟨by decide, fun r h1 h2 => ?_, fun r h1 h2 => ?_, fun r hnot => ?_⟩
  · unfold normalizedRoute
    rw [if_neg h1, if_pos h2]
  · unfold normalizedRoute
    rw [if_neg h1, if_neg h2]
  · by_cases h1 : r = "/"
    · subst h1
      decide
    · by_cases h2 : r.data.getLast? = some '/'
      · have h3 : r.data.dropLast.getLast? ≠ some '/' := fun hc => hnot ⟨h2, hc⟩
        have e1 : normalizedRoute r = String.mk r.data.dropLast := by
          unfold normalizedRoute
          rw [if_neg h1, if_pos h2]
        have hne : String.mk r.data.dropLast ≠ "/" := by
          intro hc
          apply h3
          have hd : r.data.dropLast = "/".data := congrArg String.data hc
          rw [hd]
          decide
        rw [e1]
        unfold normalizedRoute
        rw [if_neg hne, if_neg h3]
      · have e1 : normalizedRoute r = r := by
          unfold normalizedRoute
          rw [if_neg h1, if_neg h2]
        rw [e1, e1]

/-- C7 witness: "/meetings/" does not end in two slashes, and
normalizing its normalization returns it unchanged. -/
theorem C7_normalization_witness :
    normalizedRoute (normalizedRoute "/meetings/") = normalizedRoute "/meetings/" :=
  C7_normalization.2.2.2 "/meetings/" (by decide)

/-- C10: once auth and role loading have finished, an unauthenticated
check reports denial for every route, whatever the cache contents, the
clock, the fetch outcome, or the role — the fail-open defaults never
reach an unauthenticated visitor. -/
theorem C10_no_user_denied (userRole : Option String)
    (cache : Option (List PagePermission × Int)) (now : Int)
    (fetch : Except Unit (List PagePermission)) (route : String) :
    checkAccess false false false userRole cache now fetch route = some false := rfl

end UsePageAccess

namespace MeetingsCalendarView

/-- Visible window start hour (MeetingsCalendarView.tsx:31). -/
def WORK_START_HOUR : Int := 8

/-- Visible window end hour (MeetingsCalendarView.tsx:32). -/
def WORK_END_HOUR : Int := 20

/-- `getMeetingPosition` (MeetingsCalendarView.tsx:71-84) on the local
wall-clock values of the meeting's start and end instants: vertical
offset in minutes (one pixel per minute) from the window start, and
height floored at 30. -/
def getMeetingPosition (startTime endTime : Int) : Int × Int :=
  let startHour := hourOf startTime
  let startMinute := minuteOf startTime
  let endHour := hourOf endTime
  let endMinute := minuteOf endTime
  let top := (startHour - WORK_START_HOUR) * 60 + startMinute
  let height := (endHour - startHour) * 60 + (endMinute - startMinute)
  (top, max height 30)

/-- Render exclusion (MeetingsCalendarView.tsx:204-207): a meeting is
drawn in its day column only when its `top` lies inside the window span
[0, (WORK_END_HOUR − WORK_START_HOUR) · 60]. -/
def renderedInColumn (startTime endTime : Int) : Bool :=
  if (getMeetingPosition startTime endTime).1 < 0 ∨
      (getMeetingPosition startTime endTime).1 > (WORK_END_HOUR - WORK_START_HOUR) * 60
  then false else true

theorem renderedInColumn_eq_false_iff (s e : Int) :
    renderedInColumn s e = false ↔
      ((getMeetingPosition s e).1 < 0 ∨ (getMeetingPosition s e).1 > 720) := by
  unfold renderedInColumn WORK_START_HOUR WORK_END_HOUR
  split_ifs with h
  · simp only [eq_self_iff_true, true_iff]
    norm_num at h
    exact h
  · simp only [Bool.true_eq_false, false_iff]
    norm_num at h ⊢
    exact h

/-- C8: for the 8–20 window, an event's top is (start hour − 8) × 60 +
start minute (equivalently its start minute-of-day minus 480), its
height is the wall-clock length floored at 30, an event 09:00–09:30 or
09:00–09:15 gets top 60 and height 30, and an event is excluded from the
column's render set exactly when its top falls outside [0, 720]. -/
theorem C8_grid_layout :
    (∀ s e : Int,
      (getMeetingPosition s e).1 = (hourOf s - 8) * 60 + minuteOf s ∧
      (getMeetingPosition s e).1 = todOf s - 480 ∧
      (getMeetingPosition s e).2 =
        max ((hourOf e - hourOf s) * 60 + (minuteOf e - minuteOf s)) 30 ∧
      (getMeetingPosition s e).2 = max (todOf e - todOf s) 30 ∧
      (renderedInColumn s e = false ↔
        ((getMeetingPosition s e).1 < 0 ∨ (getMeetingPosition s e).1 > 720))) ∧
    getMeetingPosition 540 570 = (60, 30) ∧
    getMeetingPosition 540 555 = (60, 30) ∧
    (getMeetingPosition 420 450).1 = -60 ∧
    renderedInColumn 420 450 = false := by
  refine ⟨fun s e => ⟨rfl, ?_, rfl, ?_, renderedInColumn_eq_false_iff s e⟩,
    by decide, by decide, by decide, by decide⟩
  · show (hourOf s - WORK_START_HOUR) * 60 + minuteOf s = todOf s - 480
    unfold hourOf minuteOf todOf WORK_START_HOUR
    omega
  · show max ((hourOf e - hourOf s) * 60 + (minuteOf e - minuteOf s)) 30 =
      max (todOf e - todOf s) 30
    have harg : (hourOf e - hourOf s) * 60 + (minuteOf e - minuteOf s) =
        todOf e - todOf s := by
      unfold hourOf minuteOf todOf
      omega
    rw [harg]

/-- `CurrentTimeIndicator` (MeetingsCalendarView.tsx:260-279): `none` (no
marker rendered) when the current hour is before the window start or at
or after the window end; otherwise the vertical offset (hour − 8) × 60 +
minute. -/
def currentTimeIndicatorTop (now : Int) : Option Int :=
  if hourOf now < WORK_START_HOUR ∨ hourOf now ≥ WORK_END_HOUR then none
  else some ((hourOf now - WORK_START_HOUR) * 60 + minuteOf now)

/-- C9: the current-time marker is suppressed exactly when `now` falls
outside the visible 8–20 window, and whenever it is shown its offset is
computed identically to an event's top with `now` in place of the event
start. -/
theorem C9_current_time_marker (now : Int) :
    (currentTimeIndicatorTop now = none ↔
      (hourOf now < WORK_START_HOUR ∨ WORK_END_HOUR ≤ hourOf now)) ∧
    (∀ e t, currentTimeIndicatorTop now = some t → t = (getMeetingPosition now e).1) := by
  constructor
  · unfold currentTimeIndicatorTop
    split_ifs with h
    · simpa using h
    · simp only [reduceCtorEq, false_iff]
      exact h
  · intro e t ht
    unfold currentTimeIndicatorTop at ht
    split_ifs at ht with h
    have h2 := Option.some.inj ht
    subst h2
    rfl

end MeetingsCalendarView

end CRM
